import Mathlib

/-!
Verification of the review-scheduling and lifecycle core of the Cqomunity
application (src/k-comunity/app.py), as a shallow embedding in Lean 4.

Conventions of the embedding:
- Dates and timestamps are integers (days since an arbitrary epoch); SQLite
  stores ISO strings whose comparison agrees with chronological order.
- Python floats are modelled as rationals; all constants in the SRS update
  (0.32, 0.18, 0.4, 1.5, 0.3, 0.9) are exactly representable.
- The Python built-in round uses round-half-to-even; pythonRound models it.
- Database rows become structures; nullable columns become Option fields.
- strptime / date formatting are external primitives of the Python standard
  library, so they enter the embedding as function parameters
  (parseYmd, parseYmdHms, formatYmd) rather than as definitions.
-/

namespace Cqomunity

/-- Python round: round half to even, as used by round(x) on the interval
computation in update_srs. -/
def pythonRound (q : ℚ) : ℤ :=
  if q - ⌊q⌋ < 1/2 then ⌊q⌋
  else if q - ⌊q⌋ > 1/2 then ⌊q⌋ + 1
  else if ⌊q⌋ % 2 = 0 then ⌊q⌋ else ⌊q⌋ + 1

/-- One row of the progress table as read by update_srs: the stability and
difficulty columns are REAL NOT NULL DEFAULT 0.0 added by schema migration,
but the code still guards them with "is not None", hence Option; aciertos
and fallos are the success and failure counters. -/
structure ProgressRow where
  stability : Option ℚ
  difficulty : Option ℚ
  aciertos : ℕ
  fallos : ℕ
deriving Repr, DecidableEq

/-- The state written back by update_srs (the upsert of app.py lines
1027-1038) together with the action_type of the activity_log row it appends
(line 1041-1043, always "answer"). -/
structure SRSResult where
  stability : ℚ
  difficulty : ℚ
  interval : ℤ
  due_date : ℤ
  last_review : ℤ
  aciertos : ℕ
  fallos : ℕ
  logged_action : String
deriving Repr, DecidableEq

/-- Rating mapping of update_srs (app.py lines 970-975): "difícil" maps to
grade 1, "medio" to 3, and every other string falls into the final else
branch and maps to 5 (the branch the source comments as "fácil"). -/
def gradeOf (difficulty_rating : String) : ℤ :=
  if difficulty_rating = "difícil" then 1
  else if difficulty_rating = "medio" then 3
  else 5

/-- Shallow embedding of update_srs (app.py lines 961-1045). The progress
argument is the row fetched for (username, question_id), or none when the
user has never seen the question; today is datetime.date.today(). -/
def update_srs (progress : Option ProgressRow) (difficulty_rating : String)
    (today : ℤ) : SRSResult :=
  let grade := gradeOf difficulty_rating
  let s_prev : ℚ := match progress with
    | some p => p.stability.getD 0
    | none => 0
  let d_prev : ℚ := match progress with
    | some p => p.difficulty.getD 0
    | none => 0
  let d_raw : ℚ :=
    if d_prev = 0 then 5
    else d_prev - 0.32 + 0.18 * ((grade : ℚ) - 3)
  let d_new : ℚ := max 1 (min 10 d_raw)
  let s_new : ℚ :=
    if s_prev = 0 then
      (if grade = 1 then 0.4 else if grade = 3 then 2 else 5)
    else if grade = 1 then s_prev * 0.4
    else s_prev * (1 + 1.5 / (d_new * 0.3))
  let new_interval : ℤ := max 1 (pythonRound (s_new * 0.9))
  let aciertos0 : ℕ := match progress with
    | some p => p.aciertos
    | none => 0
  let fallos0 : ℕ := match progress with
    | some p => p.fallos
    | none => 0
  { stability := s_new
    difficulty := d_new
    interval := new_interval
    due_date := today + new_interval
    last_review := today
    aciertos := if grade = 1 then aciertos0 else aciertos0 + 1
    fallos := if grade = 1 then fallos0 + 1 else fallos0
    logged_action := "answer" }

/-- C1: grading an existing memory state with stability 5.0, difficulty 5.0
and rating fail ("difícil") yields stability 2.0, difficulty 4.32,
interval 2, due_date = today + 2, failures incremented by one and successes
unchanged. -/
theorem update_srs_fail_existing_item (a f : ℕ) (today : ℤ) :
    update_srs (some ⟨some 5, some 5, a, f⟩) "difícil" today =
      { stability := 2
        difficulty := 4.32
        interval := 2
        due_date := today + 2
        last_review := today
        aciertos := a
        fallos := f + 1
        logged_action := "answer" } := by
  have hg : gradeOf "difícil" = 1 := rfl
  have hfloor : (⌊(5 * 0.4 * 0.9 : ℚ)⌋ : ℤ) = 1 := by norm_num
  simp only [update_srs, hg, Option.getD_some]
  norm_num [pythonRound, hfloor, SRSResult.mk.injEq]

/-- C3: after every grade call, on any prior state, the persisted state
satisfies due_date = last_review + interval exactly, and last_review is the
day of grading; since this holds for every single call, it holds for all
states reachable through grade. -/
theorem update_srs_due_date_consistency (progress : Option ProgressRow)
    (difficulty_rating : String) (today : ℤ) :
    (update_srs progress difficulty_rating today).due_date =
        (update_srs progress difficulty_rating today).last_review +
          (update_srs progress difficulty_rating today).interval ∧
      (update_srs progress difficulty_rating today).last_review = today :=
  ⟨rfl, rfl⟩

/-- C2 counterexample: the claim says a rating outside the three accepted
values is rejected before mutating any state; but update_srs maps the
rating "invalid" into the final else branch (grade 5), writes a new memory
state whose success counter is incremented from 0 to 1, and still appends an
"answer" activity event. -/
theorem update_srs_invalid_rating_mutates :
    (update_srs (some ⟨some 5, some 5, 0, 0⟩) "invalid" 0).aciertos = 1 ∧
      (update_srs (some ⟨some 5, some 5, 0, 0⟩) "invalid" 0).logged_action
        = "answer" := by
  constructor <;> rfl

/-- C2 amended: a rating that is not "difícil" and not "medio" is not
rejected; update_srs silently treats it exactly like "fácil" (grade 5) and
performs the same state mutation and activity append. -/
theorem update_srs_unknown_rating_is_facil (difficulty_rating : String)
    (h1 : difficulty_rating ≠ "difícil") (h2 : difficulty_rating ≠ "medio")
    (progress : Option ProgressRow) (today : ℤ) :
    update_srs progress difficulty_rating today =
      update_srs progress "fácil" today := by
  have hg : gradeOf difficulty_rating = gradeOf "fácil" := by
    simp [gradeOf, h1, h2]
  simp only [update_srs, hg]

/-- Witness for the C2 amended theorem at the concrete rating "invalid". -/
theorem update_srs_unknown_rating_is_facil_witness :
    update_srs (some ⟨some 5, some 5, 0, 0⟩) "invalid" 0 =
      update_srs (some ⟨some 5, some 5, 0, 0⟩) "fácil" 0 :=
  update_srs_unknown_rating_is_facil "invalid" (by decide) (by decide)
    (some ⟨some 5, some 5, 0, 0⟩) 0

/-- C10: a stored progress row with the schema-migration defaults is treated
as first exposure: difficulty 0.0 becomes 5.0; stability 0.0 is replaced by
the seed stability of the grade (grade 1 gives 0.4, grade 3 gives 2.0,
grade 5 gives 5.0) instead of the multiplicative update; and from any prior
state with nonnegative stored stability the resulting stability is positive,
while the interval is at least 1 for every call whatsoever. -/
theorem update_srs_zero_defaults_first_exposure (r : ProgressRow)
    (difficulty_rating : String) (today : ℤ) :
    (r.difficulty.getD 0 = 0 →
        (update_srs (some r) difficulty_rating today).difficulty = 5) ∧
      (r.stability.getD 0 = 0 →
        (update_srs (some r) difficulty_rating today).stability =
          (if gradeOf difficulty_rating = 1 then 0.4
            else if gradeOf difficulty_rating = 3 then 2 else 5)) ∧
      (0 ≤ r.stability.getD 0 →
        0 < (update_srs (some r) difficulty_rating today).stability) ∧
      1 ≤ (update_srs (some r) difficulty_rating today).interval := by
  refine ⟨?_, ?_, ?_, ?_⟩
  · intro hd
    simp only [update_srs, hd, if_pos rfl]
    norm_num
  · intro hs
    simp [update_srs, hs]
  · intro hs
    rcases eq_or_lt_of_le hs with hzero | hpos
    · simp [update_srs, ← hzero]
      split_ifs <;> norm_num
    · simp only [update_srs, if_neg (ne_of_gt hpos)]
      rcases eq_or_ne (gradeOf difficulty_rating) 1 with hg | hg
      · rw [if_pos hg]
        exact mul_pos hpos (by norm_num)
      · rw [if_neg hg]
        refine mul_pos hpos ?_
        have hM : (0 : ℚ) < max 1 (min 10 (if r.difficulty.getD 0 = 0 then 5
            else r.difficulty.getD 0 - 0.32 +
              0.18 * ((gradeOf difficulty_rating : ℚ) - 3))) :=
          lt_of_lt_of_le one_pos (le_max_left _ _)
        have h15 : (0 : ℚ) < 1.5 / (max 1 (min 10
            (if r.difficulty.getD 0 = 0 then 5
              else r.difficulty.getD 0 - 0.32 +
                0.18 * ((gradeOf difficulty_rating : ℚ) - 3))) * 0.3) :=
          div_pos (by norm_num) (mul_pos hM (by norm_num))
        linarith
  · simp only [update_srs]
    exact le_max_left 1 _

/-- Witness for C10 at the concrete migrated row with stability 0.0 and
difficulty 0.0, graded "difícil" on day 0. -/
theorem update_srs_zero_defaults_first_exposure_witness :
    (update_srs (some ⟨some 0, some 0, 0, 0⟩) "difícil" 0).difficulty = 5 ∧
      (update_srs (some ⟨some 0, some 0, 0, 0⟩) "difícil" 0).stability =
        0.4 ∧
      0 < (update_srs (some ⟨some 0, some 0, 0, 0⟩) "difícil" 0).stability ∧
      1 ≤ (update_srs (some ⟨some 0, some 0, 0, 0⟩) "difícil" 0).interval := by
  have h := update_srs_zero_defaults_first_exposure ⟨some 0, some 0, 0, 0⟩
    "difícil" 0
  refine ⟨h.1 rfl, ?_, h.2.2.1 (le_refl 0), h.2.2.2⟩
  have hs := h.2.1 rfl
  rw [hs]
  rfl

/-! Item selection: get_next_question_for_user (app.py lines 880-959),
main infinite-flow mode (no topic practice override). The questions table
contributes id and status; the progress table contributes, per
(username, question_id), the due_date and the nullable last_review. -/

/-- One row of the questions table, restricted to the columns the selection
queries read. -/
structure Question where
  id : ℕ
  status : String
deriving Repr, DecidableEq

/-- One row of the progress table, restricted to the columns the selection
queries read; due_date is NOT NULL in the schema. -/
structure ProgressEntry where
  username : String
  question_id : ℕ
  due_date : ℤ
  last_review : Option ℤ
deriving Repr, DecidableEq

/-- Lookup of the progress row joined to a question for a given user, as in
LEFT JOIN progress p ON q.id = p.question_id AND p.username = ?.
The pair (username, question_id) is the primary key of progress, so at most
one row matches; find? takes the first. -/
def findProgress (ps : List ProgressEntry) (u : String) (qid : ℕ) :
    Option ProgressEntry :=
  ps.find? (fun p => decide (p.username = u) && decide (p.question_id = qid))

/-- WHERE clause of the tier-1 query (app.py 913-923): status = "active" and
(p.due_date <= today OR p.question_id IS NULL). -/
def isDueOrNew (ps : List ProgressEntry) (u : String) (today : ℤ)
    (q : Question) : Bool :=
  decide (q.status = "active") &&
    match findProgress ps u q.id with
    | none => true
    | some p => decide (p.due_date ≤ today)

/-- ORDER BY key of the tier-1 query: CASE WHEN p.due_date <= today THEN 0
ELSE 1 END, then p.due_date ASC. Rows without a progress row have a NULL
due_date; inside the tier-1 result set every key-1 row is such a row, so
they all tie on the second component, modelled by the constant 0. -/
def tier1Key (ps : List ProgressEntry) (u : String) (today : ℤ)
    (q : Question) : ℤ × ℤ :=
  match findProgress ps u q.id with
  | some p => (if p.due_date ≤ today then 0 else 1, p.due_date)
  | none => (1, 0)

/-- WHERE clause of the tier-2 query (app.py 931-939): status = "active",
joined progress row present, p.due_date > today, and
(p.last_review IS NULL OR p.last_review != today). -/
def isAdvanceCandidate (ps : List ProgressEntry) (u : String) (today : ℤ)
    (q : Question) : Bool :=
  decide (q.status = "active") &&
    match findProgress ps u q.id with
    | some p =>
        decide (today < p.due_date) &&
          (decide (p.last_review = none) || decide (p.last_review ≠ some today))
    | none => false

/-- Strict lexicographic order on sort keys. -/
def keyLt (a b : ℤ × ℤ) : Prop :=
  a.1 < b.1 ∨ (a.1 = b.1 ∧ a.2 < b.2)

instance (a b : ℤ × ℤ) : Decidable (keyLt a b) := by
  unfold keyLt
  infer_instance

theorem keyLt_irrefl (a : ℤ × ℤ) : ¬ keyLt a a := by
  unfold keyLt
  omega

theorem keyLt_trans {a b c : ℤ × ℤ} (h1 : keyLt a b) (h2 : keyLt b c) :
    keyLt a c := by
  unfold keyLt at *
  omega

theorem keyLt_resolve {a b c : ℤ × ℤ} (h1 : ¬ keyLt a b) (h2 : keyLt a c) :
    keyLt b c := by
  unfold keyLt at *
  omega

/-- ORDER BY ... LIMIT 1 over a result list: the first element whose key is
minimal in the strict lexicographic order. SQLite may break exact-key ties
arbitrarily; the model fixes the leftmost such row. -/
def pickMinBy (key : Question → ℤ × ℤ) : List Question → Option Question
  | [] => none
  | x :: xs =>
      some (xs.foldl (fun best y => if keyLt (key y) (key best) then y
        else best) x)

/-- Result record of the selection: question id plus the is_advance flag. -/
structure NextQuestion where
  id : ℕ
  is_advance : Bool
deriving Repr, DecidableEq

/-- Shallow embedding of get_next_question_for_user (app.py lines 880-959)
in the main infinite-flow mode. Tier 1: due or new, ordered overdue first by
oldest due_date, is_advance false. Tier 2: future-dated items not reviewed
today, soonest due_date first, is_advance true. Tier 3: any active question
(ORDER BY RANDOM() LIMIT 1, modelled as the first active question),
is_advance true. Otherwise none. -/
def get_next_question_for_user (qs : List Question) (ps : List ProgressEntry)
    (username : String) (today : ℤ) : Option NextQuestion :=
  match pickMinBy (tier1Key ps username today)
      (qs.filter (isDueOrNew ps username today)) with
  | some q => some ⟨q.id, false⟩
  | none =>
    match pickMinBy (fun q => (0, ((findProgress ps username q.id).map
        ProgressEntry.due_date).getD 0))
        (qs.filter (isAdvanceCandidate ps username today)) with
    | some q => some ⟨q.id, true⟩
    | none =>
      match (qs.filter (fun q => decide (q.status = "active"))).head? with
      | some q => some ⟨q.id, true⟩
      | none => none

theorem foldl_min_mem (key : Question → ℤ × ℤ) (xs : List Question)
    (best : Question) :
    xs.foldl (fun b y => if keyLt (key y) (key b) then y else b) best = best ∨
      xs.foldl (fun b y => if keyLt (key y) (key b) then y else b) best ∈ xs := by
  induction xs generalizing best with
  | nil => exact Or.inl rfl
  | cons z zs ih =>
    simp only [List.foldl_cons]
    rcases ih (if keyLt (key z) (key best) then z else best) with h | h
    · rw [h]
      split_ifs with hz
      · exact Or.inr (List.mem_cons_self _ _)
      · exact Or.inl rfl
    · exact Or.inr (List.mem_cons_of_mem _ h)

theorem foldl_min_le (key : Question → ℤ × ℤ) (xs : List Question)
    (best : Question) :
    (∀ y ∈ xs, ¬ keyLt (key y)
        (key (xs.foldl (fun b z => if keyLt (key z) (key b) then z else b)
          best))) ∧
      ¬ keyLt (key best)
        (key (xs.foldl (fun b z => if keyLt (key z) (key b) then z else b)
          best)) := by
  induction xs generalizing best with
  | nil =>
    exact ⟨fun y hy => absurd hy (List.not_mem_nil y), keyLt_irrefl _⟩
  | cons z zs ih =>
    simp only [List.foldl_cons]
    by_cases hz : keyLt (key z) (key best)
    · rw [if_pos hz]
      obtain ⟨ihall, ihbest⟩ := ih z
      refine ⟨fun y hy => ?_, fun hlt => ihbest (keyLt_trans hz hlt)⟩
      rcases List.mem_cons.mp hy with rfl | hmem
      · exact ihbest
      · exact ihall y hmem
    · rw [if_neg hz]
      obtain ⟨ihall, ihbest⟩ := ih best
      refine ⟨fun y hy => ?_, ihbest⟩
      rcases List.mem_cons.mp hy with rfl | hmem
      · exact fun hlt => ihbest (keyLt_resolve hz hlt)
      · exact ihall y hmem

theorem pickMinBy_spec (key : Question → ℤ × ℤ) (l : List Question)
    (q : Question) (h : pickMinBy key l = some q) :
    q ∈ l ∧ ∀ y ∈ l, ¬ keyLt (key y) (key q) := by
  match l with
  | [] => simp [pickMinBy] at h
  | x :: xs =>
    simp only [pickMinBy, Option.some.injEq] at h
    subst h
    constructor
    · rcases foldl_min_mem key xs x with h | h
      · rw [h]
        exact List.mem_cons_self _ _
      · exact List.mem_cons_of_mem _ h
    · intro y hy
      obtain ⟨hall, hbest⟩ := foldl_min_le key xs x
      rcases List.mem_cons.mp hy with rfl | hmem
      · exact hbest
      · exact hall y hmem

theorem pickMinBy_nonempty (key : Question → ℤ × ℤ) (l : List Question)
    (h : l ≠ []) : ∃ q, pickMinBy key l = some q := by
  match l with
  | [] => exact absurd rfl h
  | x :: xs => exact ⟨_, rfl⟩

theorem isDueOrNew_active {ps : List ProgressEntry} {u : String} {today : ℤ}
    {q : Question} (h : isDueOrNew ps u today q = true) :
    q.status = "active" := by
  unfold isDueOrNew at h
  simp only [Bool.and_eq_true, decide_eq_true_eq] at h
  exact h.1

theorem isDueOrNew_progress {ps : List ProgressEntry} {u : String}
    {today : ℤ} {q : Question} {p : ProgressEntry}
    (h : isDueOrNew ps u today q = true)
    (hp : findProgress ps u q.id = some p) : p.due_date ≤ today := by
  unfold isDueOrNew at h
  rw [hp] at h
  simp only [Bool.and_eq_true, decide_eq_true_eq] at h
  exact h.2

/-- C4: for a user with at least one active due-or-new item and at least one
active future-dated item, next_item returns a due-or-new item with
is_advance false, never the future-dated one (the returned item has no
progress row with due_date past today); and within the tier, any active
overdue item forces the result to be an overdue item of due_date at most as
late, so overdue items ordered by oldest due_date precede brand-new
items. -/
theorem next_item_prioritizes_due_or_new (qs : List Question)
    (ps : List ProgressEntry) (u : String) (today : ℤ)
    (h1 : ∃ q ∈ qs, isDueOrNew ps u today q = true)
    (h2 : ∃ q ∈ qs, q.status = "active" ∧
      ∃ p, findProgress ps u q.id = some p ∧ today < p.due_date) :
    ∃ r : NextQuestion, get_next_question_for_user qs ps u today = some r ∧
      r.is_advance = false ∧
      (∃ q ∈ qs, q.id = r.id ∧ isDueOrNew ps u today q = true) ∧
      (∀ p, findProgress ps u r.id = some p → p.due_date ≤ today) ∧
      (∀ q ∈ qs, q.status = "active" →
        ∀ p, findProgress ps u q.id = some p → p.due_date ≤ today →
          ∃ p2, findProgress ps u r.id = some p2 ∧
            p2.due_date ≤ p.due_date) := by
  obtain ⟨q0, hq0mem, hq0⟩ := h1
  have hL : q0 ∈ qs.filter (isDueOrNew ps u today) :=
    List.mem_filter.mpr ⟨hq0mem, hq0⟩
  obtain ⟨w, hw⟩ := pickMinBy_nonempty (tier1Key ps u today) _
    (List.ne_nil_of_mem hL)
  obtain ⟨hwmem, hwmin⟩ := pickMinBy_spec _ _ _ hw
  obtain ⟨hwqs, hwdue⟩ := List.mem_filter.mp hwmem
  refine ⟨⟨w.id, false⟩, ?_, rfl, ⟨w, hwqs, rfl, hwdue⟩, ?_, ?_⟩
  · unfold get_next_question_for_user
    rw [hw]
  · intro p hp
    exact isDueOrNew_progress hwdue hp
  · intro q hqmem hqact p hp hpd
    have hqfilter : q ∈ qs.filter (isDueOrNew ps u today) := by
      refine List.mem_filter.mpr ⟨hqmem, ?_⟩
      unfold isDueOrNew
      rw [hp]
      simp [hqact, hpd]
    have hmin := hwmin q hqfilter
    cases hfind : findProgress ps u w.id with
    | none =>
      exfalso
      apply hmin
      unfold tier1Key keyLt
      rw [hp, hfind]
      simp [hpd]
    | some p2 =>
      have hp2d : p2.due_date ≤ today := isDueOrNew_progress hwdue hfind
      refine ⟨p2, rfl, ?_⟩
      unfold tier1Key keyLt at hmin
      rw [hp, hfind] at hmin
      simp [hpd, hp2d] at hmin
      omega

/-- Witness for C4: user "u" has question 1 overdue (due day -1, today day 0)
and question 2 future-dated (due day 5). -/
theorem next_item_prioritizes_due_or_new_witness :
    ∃ r : NextQuestion,
      get_next_question_for_user [⟨1, "active"⟩, ⟨2, "active"⟩]
          [⟨"u", 1, -1, some (-3)⟩, ⟨"u", 2, 5, some (-1)⟩] "u" 0 = some r ∧
        r.is_advance = false ∧
        (∃ q ∈ ([⟨1, "active"⟩, ⟨2, "active"⟩] : List Question),
          q.id = r.id ∧
            isDueOrNew [⟨"u", 1, -1, some (-3)⟩, ⟨"u", 2, 5, some (-1)⟩]
              "u" 0 q = true) ∧
        (∀ p, findProgress [⟨"u", 1, -1, some (-3)⟩, ⟨"u", 2, 5, some (-1)⟩]
            "u" r.id = some p → p.due_date ≤ 0) ∧
        (∀ q ∈ ([⟨1, "active"⟩, ⟨2, "active"⟩] : List Question),
          q.status = "active" →
          ∀ p, findProgress [⟨"u", 1, -1, some (-3)⟩, ⟨"u", 2, 5, some (-1)⟩]
              "u" q.id = some p → p.due_date ≤ 0 →
            ∃ p2, findProgress
                [⟨"u", 1, -1, some (-3)⟩, ⟨"u", 2, 5, some (-1)⟩]
                "u" r.id = some p2 ∧ p2.due_date ≤ p.due_date) :=
  next_item_prioritizes_due_or_new _ _ _ _
    ⟨⟨1, "active"⟩, by decide, by decide⟩
    ⟨⟨2, "active"⟩, by decide, by decide,
      ⟨⟨"u", 2, 5, some (-1)⟩, by decide, by decide⟩⟩

/-- C5: when a user has zero due-or-new items and zero eligible advance
items but at least one active question exists, next_item falls back to an
active question with is_advance true, never the none result. -/
theorem next_item_fallback_guarantee (qs : List Question)
    (ps : List ProgressEntry) (u : String) (today : ℤ)
    (h1 : ∀ q ∈ qs, isDueOrNew ps u today q = false)
    (h2 : ∀ q ∈ qs, isAdvanceCandidate ps u today q = false)
    (h3 : ∃ q ∈ qs, q.status = "active") :
    ∃ r : NextQuestion, get_next_question_for_user qs ps u today = some r ∧
      r.is_advance = true ∧ ∃ q ∈ qs, q.id = r.id ∧ q.status = "active" := by
  have hf1 : qs.filter (isDueOrNew ps u today) = [] := by
    rw [List.filter_eq_nil_iff]
    intro q hq
    simp [h1 q hq]
  have hf2 : qs.filter (isAdvanceCandidate ps u today) = [] := by
    rw [List.filter_eq_nil_iff]
    intro q hq
    simp [h2 q hq]
  obtain ⟨q0, hq0, hact⟩ := h3
  have hf3 : q0 ∈ qs.filter (fun q => decide (q.status = "active")) :=
    List.mem_filter.mpr ⟨hq0, by simp [hact]⟩
  cases hflt : qs.filter (fun q => decide (q.status = "active")) with
  | nil =>
    rw [hflt] at hf3
    exact absurd hf3 (List.not_mem_nil q0)
  | cons w ws =>
    have hwmem : w ∈ qs.filter (fun q => decide (q.status = "active")) := by
      rw [hflt]
      exact List.mem_cons_self w ws
    obtain ⟨hwqs, hwact⟩ := List.mem_filter.mp hwmem
    refine ⟨⟨w.id, true⟩, ?_, rfl, w, hwqs, rfl, by simpa using hwact⟩
    unfold get_next_question_for_user
    rw [hf1, hf2, hflt]
    rfl

/-- Witness for C5: question 1 is active but future-dated (due day 3) and
was already reviewed today (day 0), so tiers 1 and 2 are empty and the
fallback returns it with is_advance true. -/
theorem next_item_fallback_guarantee_witness :
    ∃ r : NextQuestion,
      get_next_question_for_user [⟨1, "active"⟩] [⟨"u", 1, 3, some 0⟩]
          "u" 0 = some r ∧
        r.is_advance = true ∧
        ∃ q ∈ ([⟨1, "active"⟩] : List Question), q.id = r.id ∧
          q.status = "active" :=
  next_item_fallback_guarantee _ _ _ _ (by decide) (by decide)
    ⟨⟨1, "active"⟩, by decide, by decide⟩

/-! Productivity scoring: calculate_user_score (app.py lines 378-432). -/

/-- The users-table row as read by calculate_user_score: only the nullable
intensive_start_date column, stored as text. -/
structure UserRow where
  intensive_start_date : Option String
deriving Repr, DecidableEq

/-- One row of the activity_log table as read by the scoring query. -/
structure ActivityRow where
  username : String
  action_type : String
  timestamp : ℤ
deriving Repr, DecidableEq

/-- Window-start computation of calculate_user_score (app.py lines 385-408):
default is the sliding window now - days_limit; when the user row exists and
intensive_start_date is truthy (non-null and non-empty), the code tries
strptime with format "YYYY-MM-DD", then "YYYY-MM-DD HH:MM:SS", and on
success uses max(intensive_start, window_start); when both parses fail it
prints a warning and keeps the sliding window. The two strptime calls enter
the embedding as the parameters parseYmd and parseYmdHms. -/
def start_date_filter (parseYmd parseYmdHms : String → Option ℤ)
    (user : Option UserRow) (now days_limit : ℤ) : ℤ :=
  let window_start := now - days_limit
  match user with
  | none => window_start
  | some u =>
    match u.intensive_start_date with
    | none => window_start
    | some s =>
      if s = "" then window_start
      else
        match parseYmd s with
        | some d => max d window_start
        | none =>
          match parseYmdHms s with
          | some d => max d window_start
          | none => window_start

/-- Counting loop of calculate_user_score (app.py lines 420-430) over the
action_type values of the selected rows: answer or answer_submitted adds 1
to the score and 1 to num_respuestas, create adds 2 to the score and 1 to
num_creadas, anything else adds nothing. -/
def tallyScore : List String → ℤ × ℕ × ℕ
  | [] => (0, 0, 0)
  | action :: rest =>
    let t := tallyScore rest
    if action = "answer" ∨ action = "answer_submitted" then
      (t.1 + 1, t.2.1, t.2.2 + 1)
    else if action = "create" then (t.1 + 2, t.2.1 + 1, t.2.2)
    else t

/-- Shallow embedding of calculate_user_score (app.py lines 378-432):
returns (score, num_creadas, num_respuestas) over the activity rows of the
user whose timestamp is at or after the window start. -/
def calculate_user_score (parseYmd parseYmdHms : String → Option ℤ)
    (user : Option UserRow) (logs : List ActivityRow) (username : String)
    (now days_limit : ℤ) : ℤ × ℕ × ℕ :=
  let start := start_date_filter parseYmd parseYmdHms user now days_limit
  tallyScore ((logs.filter (fun l => decide (l.username = username) &&
    decide (start ≤ l.timestamp))).map ActivityRow.action_type)

/-- Modelled from the C6 claim wording: the point weight of one activity
event kind. -/
def spec_event_weight (kind : String) : ℤ :=
  if kind = "answer" ∨ kind = "answer_submitted" then 1
  else if kind = "create" then 2
  else 0

/-- Modelled from the C6 claim wording: the window starts at
max(intensive_start_date, now - window_days) when intensive_start_date is
set and parseable in either accepted format, and at now - window_days
otherwise. -/
def spec_window_start (parseYmd parseYmdHms : String → Option ℤ)
    (intensive_start_date : Option String) (now window_days : ℤ) : ℤ :=
  match intensive_start_date with
  | some s =>
    match parseYmd s with
    | some d => max d (now - window_days)
    | none =>
      match parseYmdHms s with
      | some d => max d (now - window_days)
      | none => now - window_days
  | none => now - window_days

theorem tallyScore_spec (actions : List String) :
    tallyScore actions = ((actions.map spec_event_weight).sum,
      actions.countP (fun a => decide (a = "create")),
      actions.countP (fun a =>
        decide (a = "answer" ∨ a = "answer_submitted"))) := by
  induction actions with
  | nil => rfl
  | cons a rest ih =>
    by_cases h1 : a = "answer" ∨ a = "answer_submitted"
    · rcases h1 with rfl | rfl <;>
        · simp [tallyScore, ih, spec_event_weight, List.countP_cons,
            Prod.ext_iff]
          omega
    · by_cases h2 : a = "create"
      · subst h2
        simp [tallyScore, ih, spec_event_weight, List.countP_cons,
          Prod.ext_iff]
        omega
      · simp [tallyScore, ih, spec_event_weight, List.countP_cons,
          Prod.ext_iff, h1, h2]

/-- Modelled from the C6 claim wording: the claimed contract of score.
Events of the user inside the window (from the claimed window start to now)
are weighed 1 for answer or answer_submitted, 2 for create, 0 otherwise;
the triple is (total score, number of creates, number of answers). -/
def spec_score (parseYmd parseYmdHms : String → Option ℤ)
    (intensive_start_date : Option String) (logs : List ActivityRow)
    (username : String) (now window_days : ℤ) : ℤ × ℕ × ℕ :=
  let start := spec_window_start parseYmd parseYmdHms intensive_start_date
    now window_days
  let acts := (logs.filter (fun l => decide (l.username = username) &&
      decide (start ≤ l.timestamp) && decide (l.timestamp ≤ now))).map
    ActivityRow.action_type
  ((acts.map spec_event_weight).sum,
    acts.countP (fun a => decide (a = "create")),
    acts.countP (fun a => decide (a = "answer" ∨ a = "answer_submitted")))

theorem start_date_filter_spec (parseYmd parseYmdHms : String → Option ℤ)
    (user : Option UserRow) (now days_limit : ℤ)
    (hp1 : parseYmd "" = none) (hp2 : parseYmdHms "" = none) :
    start_date_filter parseYmd parseYmdHms user now days_limit =
      spec_window_start parseYmd parseYmdHms
        (user.bind UserRow.intensive_start_date) now days_limit := by
  rcases user with _ | ⟨isd⟩
  · rfl
  · rcases isd with _ | s
    · rfl
    · by_cases hs : s = ""
      · subst hs
        simp [start_date_filter, spec_window_start, hp1, hp2]
      · simp [start_date_filter, spec_window_start, hs]

/-- C6: under the ledger invariant that no activity row is future-dated
(every timestamp is at most now), and given that strptime rejects the empty
string, calculate_user_score returns exactly the (score, num_creates,
num_answers) triple described by the claim, window-start rule included. -/
theorem calculate_user_score_contract
    (parseYmd parseYmdHms : String → Option ℤ) (user : Option UserRow)
    (logs : List ActivityRow) (username : String) (now days_limit : ℤ)
    (hbound : ∀ l ∈ logs, l.timestamp ≤ now)
    (hp1 : parseYmd "" = none) (hp2 : parseYmdHms "" = none) :
    calculate_user_score parseYmd parseYmdHms user logs username now
        days_limit =
      spec_score parseYmd parseYmdHms
        (user.bind UserRow.intensive_start_date) logs username now
        days_limit := by
  unfold calculate_user_score spec_score
  rw [start_date_filter_spec parseYmd parseYmdHms user now days_limit hp1 hp2]
  have hfilter : logs.filter (fun l => decide (l.username = username) &&
      decide (spec_window_start parseYmd parseYmdHms
        (user.bind UserRow.intensive_start_date) now days_limit ≤
          l.timestamp)) =
      logs.filter (fun l => decide (l.username = username) &&
        decide (spec_window_start parseYmd parseYmdHms
          (user.bind UserRow.intensive_start_date) now days_limit ≤
            l.timestamp) && decide (l.timestamp ≤ now)) := by
    apply List.filter_congr
    intro l hl
    have hts := hbound l hl
    simp [hts]
  simp only [hfilter, tallyScore_spec]

/-- Witness for C6: user "u" entered intensive mode on the parsed day 10,
now is day 13 with a 3-day window, so the window starts at day 10; the
answer at day 12 scores 1, the create at day 11 scores 2, the answer at
day 5 is outside the window and the answer of user "v" is filtered out. -/
theorem calculate_user_score_contract_witness :
    calculate_user_score
        (fun s => if s = "2024-01-01" then some 10 else none)
        (fun _ => none) (some ⟨some "2024-01-01"⟩)
        [⟨"u", "answer", 12⟩, ⟨"u", "create", 11⟩, ⟨"u", "answer", 5⟩,
          ⟨"v", "answer", 12⟩] "u" 13 3 =
      spec_score (fun s => if s = "2024-01-01" then some 10 else none)
        (fun _ => none)
        ((some (⟨some "2024-01-01"⟩ : UserRow)).bind
          UserRow.intensive_start_date)
        [⟨"u", "answer", 12⟩, ⟨"u", "create", 11⟩, ⟨"u", "answer", 5⟩,
          ⟨"v", "answer", 12⟩] "u" 13 3 :=
  calculate_user_score_contract _ _ _ _ _ _ _ (by decide) (by decide)
    (by decide)

/-- C7: an intensive_start_date that parses in neither accepted format makes
calculate_user_score fall back to the plain trailing window: the window
start equals now - days_limit, and the returned triple equals the one
computed for a user with no intensive_start_date at all. The embedding is a
total function, mirroring the try/except guard that lets no exception
escape the parse. -/
theorem calculate_user_score_unparseable_fallback
    (parseYmd parseYmdHms : String → Option ℤ) (s : String)
    (logs : List ActivityRow) (username : String) (now days_limit : ℤ)
    (h1 : parseYmd s = none) (h2 : parseYmdHms s = none) :
    start_date_filter parseYmd parseYmdHms (some ⟨some s⟩) now days_limit =
        now - days_limit ∧
      calculate_user_score parseYmd parseYmdHms (some ⟨some s⟩) logs
          username now days_limit =
        calculate_user_score parseYmd parseYmdHms none logs username now
          days_limit := by
  have hw : start_date_filter parseYmd parseYmdHms (some ⟨some s⟩) now
      days_limit = now - days_limit := by
    by_cases hs : s = ""
    · subst hs
      simp [start_date_filter]
    · simp [start_date_filter, hs, h1, h2]
  refine ⟨hw, ?_⟩
  unfold calculate_user_score
  rw [hw]
  rfl

/-- Witness for C7: the date text "31/12/2024" parses in neither format, so
the score of user "u" is computed over the plain trailing window. -/
theorem calculate_user_score_unparseable_fallback_witness :
    start_date_filter (fun _ => none) (fun _ => none) (some ⟨some
        "31/12/2024"⟩) 1 3 = 1 - 3 ∧
      calculate_user_score (fun _ => none) (fun _ => none)
          (some ⟨some "31/12/2024"⟩) [⟨"u", "answer", 0⟩] "u" 1 3 =
        calculate_user_score (fun _ => none) (fun _ => none) none
          [⟨"u", "answer", 0⟩] "u" 1 3 :=
  calculate_user_score_unparseable_fallback (fun _ => none) (fun _ => none)
    "31/12/2024" [⟨"u", "answer", 0⟩] "u" 1 3 rfl rfl

/-! Login lifecycle evaluation: the block of show_login_page that runs once
the submitted password has been verified (app.py lines 725-761). -/

/-- The users-table row as read by the lifecycle portion of the login
flow. -/
structure LoginUserRow where
  status : String
  is_intensive : Bool
  intensive_start_date : Option String
  max_inactivity_days : ℤ
deriving Repr, DecidableEq

/-- SELECT MAX(timestamp) FROM activity_log WHERE username = ? (app.py
line 748). -/
def last_activity_ts (logs : List ActivityRow) (username : String) :
    Option ℤ :=
  ((logs.filter (fun l => decide (l.username = username))).map
    ActivityRow.timestamp).max?

/-- Inactivity test of app.py lines 749-755: true when the user has no
recorded activity at all, or when the days since the last activity exceed
max_inactivity_days. -/
def login_is_inactive (logs : List ActivityRow) (username : String)
    (now max_days : ℤ) : Bool :=
  match last_activity_ts logs username with
  | some t => decide (max_days < now - t)
  | none => true

/-- Shallow embedding of the lifecycle evaluation inside show_login_page
(app.py lines 725-761). Returns some (allowed, updated user row); the none
result models the ValueError that the unguarded strptime of line 741 raises
when the stored intensive_start_date text does not parse as "YYYY-MM-DD".
The today parameter is datetime.date.today() and now is
datetime.datetime.now(), both in days. -/
def evaluate_login (parseYmd parseYmdHms : String → Option ℤ)
    (formatYmd : ℤ → String) (u : LoginUserRow) (logs : List ActivityRow)
    (username : String) (today now : ℤ) : Option (Bool × LoginUserRow) :=
  if u.status = "pending_delete" then some (false, u)
  else if u.is_intensive then
    match u.intensive_start_date with
    | none =>
      some (true, { u with intensive_start_date := some (formatYmd today) })
    | some start_str =>
      match parseYmd start_str with
      | none => none
      | some start_date =>
        if today - start_date < u.max_inactivity_days then some (true, u)
        else
          let score := (calculate_user_score parseYmd parseYmdHms
            (some ⟨some start_str⟩) logs username now
            u.max_inactivity_days).1
          if score < 30 ∨ login_is_inactive logs username now
              u.max_inactivity_days then
            some (false, { u with status := "pending_delete" })
          else some (true, u)
  else some (true, u)

/-- C9 counterexample: an intensive user with status pending_delete, with
intensive_start_date set to the parsed day 0 and today = 1 inside the
3-day grace period, is rejected by the login evaluation (the
pending_delete check of line 725 fires before the grace logic), so the
claim that every such call allows the login is false at this input. -/
theorem evaluate_login_grace_pending_delete_rejected :
    evaluate_login (fun s => if s = "2024-01-01" then some 0 else none)
        (fun _ => none) (fun _ => "")
        ⟨"pending_delete", true, some "2024-01-01", 3⟩ [] "u" 1 1 =
      some (false, ⟨"pending_delete", true, some "2024-01-01", 3⟩) ∧
      (⟨"pending_delete", true, some "2024-01-01", 3⟩ :
          LoginUserRow).is_intensive = true ∧
      ((1 : ℤ) - 0 <
        (⟨"pending_delete", true, some "2024-01-01", 3⟩ :
          LoginUserRow).max_inactivity_days) := by
  refine ⟨rfl, rfl, by decide⟩

/-- C9 amended: for an intensive user whose status is not pending_delete,
with intensive_start_date set and today - intensive_start_date <
quota_window_days, the login evaluation allows the login and returns the
user row unchanged, so repeated evaluation is idempotent on status and
intensive_start_date. -/
theorem evaluate_login_grace_idempotent
    (parseYmd parseYmdHms : String → Option ℤ) (formatYmd : ℤ → String)
    (u : LoginUserRow) (logs : List ActivityRow) (username : String)
    (today now : ℤ) (s : String) (sd : ℤ)
    (hstatus : u.status ≠ "pending_delete")
    (hint : u.is_intensive = true)
    (hstart : u.intensive_start_date = some s)
    (hparse : parseYmd s = some sd)
    (hgrace : today - sd < u.max_inactivity_days) :
    evaluate_login parseYmd parseYmdHms formatYmd u logs username today
        now = some (true, u) := by
  simp [evaluate_login, hstatus, hint, hstart, hparse, hgrace]

/-- Witness for the C9 amended theorem: an active intensive user inside the
grace period is allowed in with an unchanged row. -/
theorem evaluate_login_grace_idempotent_witness :
    evaluate_login (fun s => if s = "2024-01-01" then some 0 else none)
        (fun _ => none) (fun _ => "")
        ⟨"active", true, some "2024-01-01", 3⟩ [] "u" 1 1 =
      some (true, ⟨"active", true, some "2024-01-01", 3⟩) :=
  evaluate_login_grace_idempotent _ _ _ _ _ _ _ _ "2024-01-01" 0
    (by decide) rfl rfl (by decide) (by decide)

set_option maxRecDepth 4000 in
/-- C8 counterexample: an intensive user with status pending_delete whose
grace period has elapsed, whose score over the window is 30 (not below the
quota) and whose last activity is recent, should be allowed in with status
unchanged according to the claim; the code rejects the login at the
pending_delete check without ever computing the score. -/
theorem evaluate_login_elapsed_pending_delete_rejected :
    evaluate_login (fun s => if s = "2024-01-01" then some 0 else none)
        (fun _ => none) (fun _ => "")
        ⟨"pending_delete", true, some "2024-01-01", 3⟩
        (List.replicate 15 ⟨"u", "create", 9⟩) "u" 10 10 =
      some (false, ⟨"pending_delete", true, some "2024-01-01", 3⟩) ∧
      (calculate_user_score
          (fun s => if s = "2024-01-01" then some 0 else none)
          (fun _ => none) (some ⟨some "2024-01-01"⟩)
          (List.replicate 15 ⟨"u", "create", 9⟩) "u" 10 3).1 = 30 ∧
      login_is_inactive (List.replicate 15 ⟨"u", "create", 9⟩) "u" 10 3 =
        false ∧
      ¬ ((10 : ℤ) - 0 < 3) := by
  refine ⟨rfl, by decide, by decide, by decide⟩

/-- C8 amended: for an intensive user whose status is not pending_delete,
whose intensive_start_date is set and parsed, and whose grace period has
elapsed, the login evaluation computes the score over quota_window_days and
the inactivity from the most recent activity event (infinite when none):
when score < 30 or the inactivity exceeds the window it stamps
pending_delete and rejects, and otherwise it allows the login with the row
unchanged. -/
theorem evaluate_login_quota_enforcement
    (parseYmd parseYmdHms : String → Option ℤ) (formatYmd : ℤ → String)
    (u : LoginUserRow) (logs : List ActivityRow) (username : String)
    (today now : ℤ) (s : String) (sd : ℤ)
    (hstatus : u.status ≠ "pending_delete")
    (hint : u.is_intensive = true)
    (hstart : u.intensive_start_date = some s)
    (hparse : parseYmd s = some sd)
    (helapsed : ¬ (today - sd < u.max_inactivity_days)) :
    (((calculate_user_score parseYmd parseYmdHms (some ⟨some s⟩) logs
            username now u.max_inactivity_days).1 < 30 ∨
          login_is_inactive logs username now u.max_inactivity_days =
            true) →
        evaluate_login parseYmd parseYmdHms formatYmd u logs username today
            now = some (false, { u with status := "pending_delete" })) ∧
      (¬ ((calculate_user_score parseYmd parseYmdHms (some ⟨some s⟩) logs
            username now u.max_inactivity_days).1 < 30 ∨
          login_is_inactive logs username now u.max_inactivity_days =
            true) →
        evaluate_login parseYmd parseYmdHms formatYmd u logs username today
            now = some (true, u)) := by
  have hbase : evaluate_login parseYmd parseYmdHms formatYmd u logs
      username today now =
      if ((calculate_user_score parseYmd parseYmdHms (some ⟨some s⟩) logs
            username now u.max_inactivity_days).1 < 30 ∨
          login_is_inactive logs username now u.max_inactivity_days = true)
      then some (false, { u with status := "pending_delete" })
      else some (true, u) := by
    simp [evaluate_login, hstatus, hint, hstart, hparse, helapsed]
  constructor
  · intro h
    rw [hbase, if_pos h]
  · intro h
    rw [hbase, if_neg h]

/-- Witness for the C8 amended theorem: an active intensive user whose
grace period elapsed and who has no activity at all scores 0 < 30, so the
login is rejected and the row is stamped pending_delete. -/
theorem evaluate_login_quota_enforcement_witness :
    evaluate_login (fun s => if s = "2024-01-01" then some 0 else none)
        (fun _ => none) (fun _ => "")
        ⟨"active", true, some "2024-01-01", 3⟩ [] "u" 10 10 =
      some (false, { (⟨"active", true, some "2024-01-01", 3⟩ :
        LoginUserRow) with status := "pending_delete" }) :=
  (evaluate_login_quota_enforcement _ _ _ _ _ _ _ _ "2024-01-01" 0
      (by decide) rfl rfl (by decide) (by decide)).1
    (Or.inl (by decide))

end Cqomunity
